import Mathlib

/-!
Shallow embedding of the gait-analysis signal pipeline of this repository.

The repository carries two variants of the core routine `analyzeGaitCV`:
the file `src/services/mediaPipeService.ts` (the version imported by the
application entry point, embedded below in namespace `MediaPipe`) and an
unnamed sibling `src/unnamed/part_004` (embedded in namespace `PartFour`).
The two variants differ exactly in the adaptive-threshold floor, the
stride/step disambiguation step and the consensus rule; both are embedded
so each claim can be settled against the code it describes.

Real-valued JavaScript numbers are modelled as `ℝ` (landmark coordinates
and visibilities, which are plain data, as `ℚ` for decidability);
`Math.round` is `jround`, `Math.sqrt` is `Real.sqrt`.  The bounded-band
DFT is embedded as `calculateDominantFrequency`; several theorems below
quantify over its rounded output, which the downstream consensus stages
receive as an ordinary numeric argument.
-/

namespace GaitAnalysis

/-- JavaScript `Math.round`: round half toward positive infinity. -/
noncomputable def jround (x : ℝ) : ℤ := ⌊x + 1/2⌋

/-- JavaScript `Array.prototype.reduce((a, b) => a + b)` without an initial
value: seeded with the head element.  All call sites in the source guard the
empty case, where JS would throw; we return 0 there. -/
def jsReduceAdd {α : Type} [AddCommMonoid α] : List α → α
  | [] => 0
  | h :: t => t.foldl (· + ·) h

/-- The `mean` field of `calculateStatistics` (identical in
`mediaPipeService.ts` and `part_004`): 0 for the empty list, otherwise
`data.reduce((a, b) => a + b) / n`. -/
def calculateStatisticsMean {α : Type} [Field α] (data : List α) : α :=
  if data.length = 0 then 0 else jsReduceAdd data / (data.length : α)

/-- `movingAverage(data, window)` (identical in both variants and in
`tensorFlowService.ts`): entry `i` is the average of `data[j]` for
`j` from `max(0, i - window + 1)` to `i`; the window shrinks at the left
boundary, so the divisor is the actual window size. -/
def movingAverage {α : Type} [Field α] (data : List α) (window : ℕ) : List α :=
  (List.range data.length).map fun i =>
    let win := (data.take (i + 1)).drop (i + 1 - window)
    win.sum / (win.length : α)

/-- A detected peak: `{ val, time }` as pushed by `findPeaks`. -/
structure Peak where
  val : ℝ
  time : ℝ

/-- Loop body of `findPeaks(data, times, adaptiveThreshold)` for one index
`i`: accept a strict local maximum above the threshold, and append it only
when the peak list is empty or the candidate's time exceeds the last accepted
peak's time by more than `minTimeDiff`; otherwise the later candidate is
dropped and the earlier kept. -/
noncomputable def findPeaksStep (minTimeDiff : ℝ) (data times : List ℝ)
    (adaptiveThreshold : ℝ) (peaks : List Peak) (i : ℕ) : List Peak :=
  if data.getD i 0 > data.getD (i - 1) 0 ∧ data.getD i 0 > data.getD (i + 1) 0 then
    if data.getD i 0 > adaptiveThreshold then
      if peaks.length = 0 ∨ times.getD i 0 - (peaks.getLast?.getD ⟨0, 0⟩).time > minTimeDiff then
        peaks ++ [⟨data.getD i 0, times.getD i 0⟩]
      else peaks
    else peaks
  else peaks

/-- Body of `findPeaks`, parameterised by the `minTimeDiff` constant (0.25 in
`mediaPipeService.ts`, 0.20 in `part_004`): the loop runs `i` from 1 to
`data.length - 2` over an initially empty peak list. -/
noncomputable def findPeaksAux (minTimeDiff : ℝ) (data times : List ℝ)
    (adaptiveThreshold : ℝ) : List Peak :=
  (List.range' 1 (data.length - 2)).foldl (findPeaksStep minTimeDiff data times adaptiveThreshold) []

namespace MediaPipe

/-- `findPeaks` of `src/services/mediaPipeService.ts` (`minTimeDiff = 0.25`). -/
noncomputable def findPeaks (data times : List ℝ) (adaptiveThreshold : ℝ) : List Peak :=
  findPeaksAux 0.25 data times adaptiveThreshold

/-- `adaptiveThreshold` of `src/services/mediaPipeService.ts` line 199:
`Math.max(mean, 0.05)`. -/
noncomputable def adaptiveThreshold (normalizedSignal : List ℝ) : ℝ :=
  max (calculateStatisticsMean normalizedSignal) 0.05

/-- Consensus of `src/services/mediaPipeService.ts` lines 206-212:
`finalStepCount = peakCount` unless
`peakCount > fftPredictedSteps * 1.5 && detectedCadence > 20 && fftPredictedSteps > 3`,
in which case `finalStepCount = fftPredictedSteps`, where
`detectedCadence = (fftPredictedSteps / analyzeDuration) * 60`. -/
noncomputable def finalStepCount (peakCount : ℕ) (fftPredictedSteps : ℤ)
    (analyzeDuration : ℝ) : ℤ :=
  let detectedCadence := ((fftPredictedSteps : ℝ) / analyzeDuration) * 60
  if (peakCount : ℝ) > (fftPredictedSteps : ℝ) * 1.5 ∧ detectedCadence > 20 ∧
      fftPredictedSteps > 3 then
    fftPredictedSteps
  else
    (peakCount : ℤ)

end MediaPipe

namespace PartFour

/-- `findPeaks` of `src/unnamed/part_004` (`minTimeDiff = 0.20`). -/
noncomputable def findPeaks (data times : List ℝ) (adaptiveThreshold : ℝ) : List Peak :=
  findPeaksAux 0.20 data times adaptiveThreshold

/-- `adaptiveThreshold` of `src/unnamed/part_004` line 203:
`Math.max(mean, 0.15)`. -/
noncomputable def adaptiveThreshold (normalizedSignal : List ℝ) : ℝ :=
  max (calculateStatisticsMean normalizedSignal) 0.15

/-- Stride/step disambiguation of `src/unnamed/part_004` lines 218-228: when
`detectedCadence > 25 && detectedCadence < 65` and
`peakCount > fftPredictedSteps * 1.5`, the FFT prediction is doubled.
Counts and the duration are rational here, matching the integer-valued
inputs this stage receives. -/
def disambiguateFft (peakCount fftPredictedSteps : ℕ) (analyzeDuration : ℚ) : ℕ :=
  let detectedCadence := ((fftPredictedSteps : ℚ) / analyzeDuration) * 60
  if detectedCadence > 25 ∧ detectedCadence < 65 then
    if (peakCount : ℚ) > (fftPredictedSteps : ℚ) * 1.5 then fftPredictedSteps * 2
    else fftPredictedSteps
  else fftPredictedSteps

/-- Consensus of `src/unnamed/part_004` lines 230-251:
`finalStepCount = peakCount`; if
`|peakCount - fftPredictedSteps| / ((peakCount + fftPredictedSteps) / 2) > 0.20`
and `fftPredictedSteps > 5`, adopt `fftPredictedSteps` when
`peakCount < fftPredictedSteps` and keep `peakCount` otherwise. -/
def consensus (peakCount fftPredictedSteps : ℕ) : ℕ :=
  let discrepancy : ℚ := |(peakCount : ℚ) - (fftPredictedSteps : ℚ)|
  let percentDiff := discrepancy / (((peakCount : ℚ) + (fftPredictedSteps : ℚ)) / 2)
  if percentDiff > 0.20 ∧ (fftPredictedSteps : ℚ) > 5 then
    if peakCount < fftPredictedSteps then fftPredictedSteps else peakCount
  else peakCount

end PartFour

/-- `calculateDominantFrequency(data, fps)` (identical in both variants): a
direct DFT evaluated at the 71 bins `f = 0.5 + k * 0.05` for `k = 0 .. 70`
(the swept band 0.5 Hz to 4.0 Hz of the source loop); returns the
`(frequency, magnitude)` pair of maximal magnitude, starting from `(0, 0)`. -/
noncomputable def calculateDominantFrequency (data : List ℝ) (fps : ℝ) : ℝ × ℝ :=
  let N := data.length
  ((List.range 71).map fun k => (0.5 + (k : ℝ) * 0.05 : ℝ)).foldl
    (fun acc f =>
      let re := ((List.range N).map fun n =>
        data.getD n 0 * Real.cos (-2 * Real.pi * f * (n : ℝ) / fps)).sum
      let im := ((List.range N).map fun n =>
        data.getD n 0 * Real.sin (-2 * Real.pi * f * (n : ℝ) / fps)).sum
      let mag := Real.sqrt (re * re + im * im)
      if mag > acc.2 then (f, mag) else acc)
    (0, 0)

/-- The temporal fields of the `CVAnalysisResult` record resolved by
`analyzeGaitCV`: `stepCount`, `cadence` (both integer),
`meanStepInterval` (seconds) and the reported (rounded) `stepTimeVariability`. -/
structure CVTemporalMetrics where
  stepCount : ℤ
  cadence : ℤ
  meanStepInterval : ℝ
  stepTimeVariability : ℤ

namespace MediaPipe

/-- Lines 196-278 of `src/services/mediaPipeService.ts`, from the normalized
signal to the resolved temporal metrics: smoothing (window 3), peak detection
against the adaptive threshold, FFT step prediction
`Math.round(frequency * analyzeDuration)`, the consensus of
`finalStepCount`, `cadence = Math.round(finalStepCount / durationMin)` when
`durationMin > 0` (0 otherwise), and the interval statistics with the
`(duration / finalStepCount, 20)` fallback for fewer than two peaks. -/
noncomputable def stepMetrics (normalizedSignal timestamps : List ℝ)
    (analyzeDuration : ℝ) : CVTemporalMetrics :=
  let smoothedSignal := movingAverage normalizedSignal 3
  let timeDomainPeaks := findPeaks smoothedSignal timestamps (adaptiveThreshold normalizedSignal)
  let peakCount := timeDomainPeaks.length
  let fftResult := calculateDominantFrequency normalizedSignal 30
  let fftPredictedSteps : ℤ := jround (fftResult.1 * analyzeDuration)
  let final := finalStepCount peakCount fftPredictedSteps analyzeDuration
  let durationMin := analyzeDuration / 60
  let cadence : ℤ := if durationMin > 0 then jround ((final : ℝ) / durationMin) else 0
  let msv : ℝ × ℝ :=
    if timeDomainPeaks.length > 1 then
      let intervals := (List.range (timeDomainPeaks.length - 1)).map fun i =>
        (timeDomainPeaks.getD (i + 1) ⟨0, 0⟩).time - (timeDomainPeaks.getD i ⟨0, 0⟩).time
      let meanStepInterval := intervals.sum / (intervals.length : ℝ)
      let variance := (intervals.map fun b => (b - meanStepInterval) ^ 2).sum /
        (intervals.length : ℝ)
      (meanStepInterval, Real.sqrt variance * 1000)
    else
      (if final > 0 then analyzeDuration / (final : ℝ) else 0, 20)
  { stepCount := final
    cadence := cadence
    meanStepInterval := msv.1
    stepTimeVariability := jround msv.2 }

end MediaPipe

/-! Section: Landmark layer

Per-frame landmark records as consumed by the `pose.onResults` callback.
Coordinates and visibilities are the raw data MediaPipe hands over; they are
modelled as rationals, while the euclidean distances derived from them are
reals. -/

/-- One pose landmark: normalized position and visibility. -/
structure Landmark where
  x : ℚ
  y : ℚ
  visibility : ℚ

/-- The landmarks of one processed frame that `analyzeGaitCV` reads, plus
the frame's `videoElement.currentTime` timestamp. -/
structure FrameLandmarks where
  timestamp : ℚ
  nose : Landmark
  leftShoulder : Landmark
  rightShoulder : Landmark
  leftAnkle : Landmark
  rightAnkle : Landmark
  leftHeel : Landmark
  rightHeel : Landmark

/-- Euclidean distance `Math.sqrt(dx*dx + dy*dy)` between two landmarks. -/
noncomputable def euclid (a b : Landmark) : ℝ :=
  Real.sqrt (((a.x - b.x : ℚ) : ℝ) * ((a.x - b.x : ℚ) : ℝ) +
    ((a.y - b.y : ℚ) : ℝ) * ((a.y - b.y : ℚ) : ℝ))

/-- The guard of the separation-data branch (lines 107-108 of
`mediaPipeService.ts`): both ankle visibilities must exceed 0.5. -/
def ankleValid (f : FrameLandmarks) : Prop :=
  f.leftAnkle.visibility > 0.5 ∧ f.rightAnkle.visibility > 0.5

instance (f : FrameLandmarks) : Decidable (ankleValid f) := by
  unfold ankleValid
  infer_instance

/-- One entry of the `rawSignals` accumulator:
`{ ankleDist, shoulderWidth, timestamp }`. -/
structure RawSignal where
  ankleDist : ℝ
  shoulderWidth : ℝ
  timestamp : ℚ

/-- The entry pushed onto `rawSignals` for one frame (lines 106-126, identical
in both variants): on a valid frame the ankle distance together with the
shoulder width floored at 0.01 (1 is substituted below the floor); on an
occluded frame a copy of the previous entry (or `{ankleDist: 0,
shoulderWidth: 1}` when none exists) with the current timestamp. -/
noncomputable def nextSignal (acc : List RawSignal) (f : FrameLandmarks) : RawSignal :=
  if ankleValid f then
    let ankleDist := euclid f.leftAnkle f.rightAnkle
    let shoulderWidth := euclid f.leftShoulder f.rightShoulder
    { ankleDist := ankleDist
      shoulderWidth := if shoulderWidth > 0.01 then shoulderWidth else 1
      timestamp := f.timestamp }
  else
    let prev := acc.getLast?.getD { ankleDist := 0, shoulderWidth := 1, timestamp := f.timestamp }
    { prev with timestamp := f.timestamp }

/-- `rawSignals.push(...)` for one frame. -/
noncomputable def pushSignal (acc : List RawSignal) (f : FrameLandmarks) : List RawSignal :=
  acc ++ [nextSignal acc f]

/-- The `rawSignals` array after the whole frame stream has been processed. -/
noncomputable def collectSignals (frames : List FrameLandmarks) : List RawSignal :=
  frames.foldl pushSignal []

/-- Line 196: `rawSignals.map(s => s.ankleDist / s.shoulderWidth)`. -/
noncomputable def normalizedSignal (frames : List FrameLandmarks) : List ℝ :=
  (collectSignals frames).map fun s => s.ankleDist / s.shoulderWidth

/-- Line 197: `rawSignals.map(s => s.timestamp)`. -/
noncomputable def timestampsOf (frames : List FrameLandmarks) : List ℝ :=
  (collectSignals frames).map fun s => (s.timestamp : ℝ)

/-- Uniform scaling of one landmark's coordinates by `k` (visibility kept). -/
def scaleLandmark (k : ℚ) (l : Landmark) : Landmark :=
  { x := k * l.x, y := k * l.y, visibility := l.visibility }

/-- Uniform scaling of all landmark coordinates of a frame by `k`. -/
def scaleFrame (k : ℚ) (f : FrameLandmarks) : FrameLandmarks :=
  { timestamp := f.timestamp
    nose := scaleLandmark k f.nose
    leftShoulder := scaleLandmark k f.leftShoulder
    rightShoulder := scaleLandmark k f.rightShoulder
    leftAnkle := scaleLandmark k f.leftAnkle
    rightAnkle := scaleLandmark k f.rightAnkle
    leftHeel := scaleLandmark k f.leftHeel
    rightHeel := scaleLandmark k f.rightHeel }

/-! Section: Base of support and heel lift -/

/-- The base-of-support candidate of one frame (lines 129-152 of
`mediaPipeService.ts`): requires both heel visibilities above 0.5, a
pixel-height proxy `|avgHeelY - noseY|` above 0.2, vertical heel alignment
`|yLeft - yRight| < 0.03`, and the converted width
`|xLeft - xRight| * (userHeightCm / subjectPixelHeight) * 0.85`
strictly between 2 and 45 cm; `none` when any test fails. -/
def bosCandidate (userHeightCm : ℚ) (f : FrameLandmarks) : Option ℚ :=
  if f.leftHeel.visibility > 0.5 ∧ f.rightHeel.visibility > 0.5 then
    let avgHeelY := (f.leftHeel.y + f.rightHeel.y) / 2
    let subjectPixelHeight := |avgHeelY - f.nose.y|
    if subjectPixelHeight > 0.2 then
      let cmPerUnit := userHeightCm / subjectPixelHeight
      let yDiff := |f.leftHeel.y - f.rightHeel.y|
      if yDiff < 0.03 then
        let widthUnit := |f.leftHeel.x - f.rightHeel.x|
        let widthCm := widthUnit * cmPerUnit * 0.85
        if widthCm > 2 ∧ widthCm < 45 then some widthCm else none
      else none
    else none
  else none

/-- The `bosMeasurements` array collected over a frame stream. -/
def bosMeasurements (userHeightCm : ℚ) (frames : List FrameLandmarks) : List ℚ :=
  frames.filterMap (bosCandidate userHeightCm)

/-- Lines 280-285: `calculatedBOS` is 0 when no measurement was collected;
otherwise the entry at index `Math.floor(length * 0.25)` of the list sorted
ascending by `(a, b) => a - b`. -/
def calculatedBOS (bos : List ℚ) : ℚ :=
  if bos.length > 0 then
    let sorted := bos.mergeSort
    let quarterIndex := ⌊(bos.length : ℚ) * 0.25⌋₊
    sorted.getD quarterIndex 0
  else 0

/-- Loop body of `calculateLift` for one index `i`: on a strict local minimum
of the smoothed series whose distance below the floor level exceeds the 0.01
noise floor, the lift amount is appended. -/
def calculateLiftStep (floorLevel : ℚ) (smoothedY : List ℚ) (lifts : List ℚ) (i : ℕ) :
    List ℚ :=
  if smoothedY.getD i 0 < smoothedY.getD (i - 1) 0 ∧
      smoothedY.getD i 0 < smoothedY.getD (i + 1) 0 then
    let liftAmountUnit := floorLevel - smoothedY.getD i 0
    if liftAmountUnit > 0.01 then lifts ++ [liftAmountUnit] else lifts
  else lifts

/-- `calculateLift(ySignal)` (lines 227-247 of `mediaPipeService.ts`): floor
level is the entry at index `Math.floor(length * 0.90)` of the ascending-sorted
unsmoothed series; local minima of the 5-sample moving average whose distance
below the floor exceeds the 0.01 noise floor are collected as lift events. -/
def calculateLift (ySignal : List ℚ) : List ℚ :=
  let sortedY := ySignal.mergeSort
  let floorLevel := sortedY.getD ⌊(sortedY.length : ℚ) * 0.90⌋₊ 0
  let smoothedY := movingAverage ySignal 5
  (List.range' 1 (smoothedY.length - 2)).foldl (calculateLiftStep floorLevel smoothedY) []

/-- Lines 253-257: `averageLiftCm` stays 0 unless some lift event was
collected and the session scale factor is positive; otherwise it is the mean
lift times `cmPerUnitAverage`. -/
def averageLiftCm (allLifts : List ℚ) (cmPerUnitAverage : ℚ) : ℚ :=
  if allLifts.length > 0 ∧ cmPerUnitAverage > 0 then
    (allLifts.sum / (allLifts.length : ℚ)) * cmPerUnitAverage
  else 0

/-- Line 84 of the application entry point (`src/unnamed/part_003`,
`handleVideoReady`): `Math.max(mpMetrics.stepCount, tfMetrics.stepCount)`. -/
def bestStepCount (mpStepCount tfStepCount : ℕ) : ℕ :=
  max mpStepCount tfStepCount

/-- Observational equivalence of two signal entries: equal normalized ratio
and equal timestamp — exactly what the step-detection pipeline reads. -/
def SignalRel (e' e : RawSignal) : Prop :=
  e'.ankleDist / e'.shoulderWidth = e.ankleDist / e.shoulderWidth ∧
  e'.timestamp = e.timestamp

/-! Section: Concrete sample frames used as evaluation points -/

instance : Inhabited Landmark := ⟨⟨0, 0, 0⟩⟩

instance : Inhabited FrameLandmarks :=
  ⟨⟨0, default, default, default, default, default, default, default⟩⟩

instance : Inhabited RawSignal := ⟨⟨0, 1, 0⟩⟩

/-- A frame whose landmarks all have visibility 0 (fully occluded pose). -/
def occludedFrame : FrameLandmarks :=
  { timestamp := 0
    nose := ⟨0, 0, 0⟩
    leftShoulder := ⟨0, 0, 0⟩
    rightShoulder := ⟨0, 0, 0⟩
    leftAnkle := ⟨0, 0, 0⟩
    rightAnkle := ⟨0, 0, 0⟩
    leftHeel := ⟨0, 0, 0⟩
    rightHeel := ⟨0, 0, 0⟩ }

/-- A fully visible frame: ankles 0.04 normalized units apart, shoulders 0.02
apart (just above the 0.01 width floor), all on horizontal lines. -/
def sampleValidFrame : FrameLandmarks :=
  { timestamp := 0
    nose := ⟨0.5, 0.05, 1⟩
    leftShoulder := ⟨0.02, 0.1, 1⟩
    rightShoulder := ⟨0, 0.1, 1⟩
    leftAnkle := ⟨0.04, 0.3, 1⟩
    rightAnkle := ⟨0, 0.3, 1⟩
    leftHeel := ⟨0.04, 0.32, 1⟩
    rightHeel := ⟨0, 0.32, 1⟩ }

/-- A double-support frame for the base-of-support path: heels level at
y = 0.9, 0.06 units apart, nose at y = 0.1. -/
def bosSampleFrame : FrameLandmarks :=
  { timestamp := 0
    nose := ⟨0.5, 0.1, 1⟩
    leftShoulder := ⟨0.6, 0.2, 1⟩
    rightShoulder := ⟨0.4, 0.2, 1⟩
    leftAnkle := ⟨0.5, 0.88, 1⟩
    rightAnkle := ⟨0.44, 0.88, 1⟩
    leftHeel := ⟨0.5, 0.9, 1⟩
    rightHeel := ⟨0.44, 0.9, 1⟩ }

/-! Section: Helper lemmas -/

lemma foldl_add_eq_add_sum {α : Type} [AddCommMonoid α] (t : List α) (a : α) :
    t.foldl (· + ·) a = a + t.sum := by
  induction t generalizing a with
  | nil => simp
  | cons x xs ih => simp [ih (a + x), add_assoc]

lemma jsReduceAdd_eq_sum {α : Type} [AddCommMonoid α] (l : List α) :
    jsReduceAdd l = l.sum := by
  cases l with
  | nil => rfl
  | cons h t => simp [jsReduceAdd, foldl_add_eq_add_sum]

lemma calculateStatisticsMean_eq {α : Type} [Field α] (s : List α) :
    calculateStatisticsMean s = s.sum / (s.length : α) := by
  rw [calculateStatisticsMean]
  split
  · rename_i h
    rw [List.length_eq_zero.mp h]
    simp
  · rw [jsReduceAdd_eq_sum]

/-! Section: C1: consensus policy -/

/-- C1 (counterexample): in the variant of `analyzeGaitCV` that the
application imports (`src/services/mediaPipeService.ts`), the pair
`peakCount = 10`, `fftPredictedSteps = 14` (at a 60 s recording) yields a
final step count of 10, not the 14 the claim states. -/
theorem consensus_mediaPipe_counterexample :
    MediaPipe.finalStepCount 10 14 60 = 10 ∧ (10 : ℤ) ≠ 14 := by
  constructor
  · rw [MediaPipe.finalStepCount]
    norm_num
  · decide

/-- C1 (amended): the stated discrepancy policy is exactly the consensus of
the `part_004` variant: with `percentDiff = |peaks - fft| / ((peaks + fft)/2)`,
a discrepancy of at most 20% keeps `peaks`; a discrepancy above 20% with
`fft > 5` adopts `fft` when `peaks < fft` and keeps `peaks` when `peaks > fft`;
in particular (10, 14) yields 14 and (14, 10) yields 14.  The current
`mediaPipeService.ts` variant does not implement this policy: it keeps
`peaks` at (10, 14). -/
theorem consensus_discrepancy_policy (p f : ℕ) :
    (|(p : ℚ) - (f : ℚ)| / (((p : ℚ) + (f : ℚ)) / 2) ≤ 0.20 → PartFour.consensus p f = p)
  ∧ (|(p : ℚ) - (f : ℚ)| / (((p : ℚ) + (f : ℚ)) / 2) > 0.20 → 5 < f → p < f →
      PartFour.consensus p f = f)
  ∧ (|(p : ℚ) - (f : ℚ)| / (((p : ℚ) + (f : ℚ)) / 2) > 0.20 → 5 < f → f < p →
      PartFour.consensus p f = p)
  ∧ PartFour.consensus 10 14 = 14 ∧ PartFour.consensus 14 10 = 14
  ∧ MediaPipe.finalStepCount 10 14 60 = 10 := by
  refine ⟨fun h => ?_, fun h1 h2 h3 => ?_, fun h1 h2 h3 => ?_,
    by rw [PartFour.consensus]; norm_num, by rw [PartFour.consensus]; norm_num, ?_⟩
  · rw [PartFour.consensus]
    exact if_neg fun hc => absurd hc.1 (not_lt.mpr h)
  · rw [PartFour.consensus]
    rw [if_pos ⟨h1, by exact_mod_cast h2⟩, if_pos h3]
  · rw [PartFour.consensus]
    rw [if_pos ⟨h1, by exact_mod_cast h2⟩, if_neg (not_lt.mpr h3.le)]
  · rw [MediaPipe.finalStepCount]
    norm_num

/-- C1 (witness): at peaks 6, fft 12 the discrepancy is 2/3 > 20%, fft > 5
and peaks < fft, so the part_004 consensus adopts the FFT count. -/
theorem consensus_discrepancy_policy_witness : PartFour.consensus 6 12 = 12 :=
  (consensus_discrepancy_policy 6 12).2.1 (by norm_num) (by norm_num) (by norm_num)

/-! Section: C2: adaptive threshold -/

/-- C2 (counterexample): for the constant-zero one-sample signal the
threshold of the imported `mediaPipeService.ts` variant is 0.05, while the
claim's formula `max(mean, 0.15)` gives 0.15. -/
theorem adaptive_threshold_counterexample :
    MediaPipe.adaptiveThreshold [0] = 0.05 ∧
    max (calculateStatisticsMean [(0 : ℝ)]) 0.15 = 0.15 ∧ (0.05 : ℝ) ≠ 0.15 := by
  refine ⟨?_, ?_, by norm_num⟩
  · rw [MediaPipe.adaptiveThreshold, calculateStatisticsMean_eq]
    simp
    norm_num
  · rw [calculateStatisticsMean_eq]
    simp
    norm_num

/-- C2 (amended): for every normalized signal the adaptive threshold is
`max(mean(signal), FLOOR)` with `mean` the arithmetic mean (0 for the empty
signal); the noise floor is 0.05 in the imported `mediaPipeService.ts`
variant and 0.15 in the `part_004` variant that the claim describes. -/
theorem adaptive_threshold_formula (s : List ℝ) :
    MediaPipe.adaptiveThreshold s = max (s.sum / (s.length : ℝ)) 0.05
  ∧ PartFour.adaptiveThreshold s = max (s.sum / (s.length : ℝ)) 0.15 := by
  rw [MediaPipe.adaptiveThreshold, PartFour.adaptiveThreshold, calculateStatisticsMean_eq]
  exact ⟨rfl, rfl⟩

/-! Section: C4: stride/step disambiguation -/

/-- C4 (counterexample): at `peakCount = 8`, `fftPredictedSteps = 5` and a
12 s duration the implied cadence is exactly 25 steps/min, the lower endpoint
of the claim's interval [25, 65), and the peak count exceeds 1.5 times the
prediction; the claim therefore demands doubling, but the code's strict
`detectedCadence > 25` test leaves the prediction at 5. -/
theorem stride_disambiguation_counterexample :
    ((5 : ℚ) / 12) * 60 = 25 ∧ (8 : ℚ) > (5 : ℚ) * 1.5 ∧
    PartFour.disambiguateFft 8 5 12 = 5 ∧ (5 : ℕ) ≠ 5 * 2 := by
  refine ⟨by norm_num, by norm_num, ?_, by decide⟩
  rw [PartFour.disambiguateFft]
  norm_num

/-- C4 (amended, for the `part_004` variant which contains this stage): the
FFT prediction is doubled exactly when the implied cadence lies strictly
between 25 and 65 steps/min and the time-domain peak count exceeds 1.5 times
the prediction; otherwise it is unchanged. -/
theorem stride_disambiguation_policy (p f : ℕ) (d : ℚ) :
    (25 < ((f : ℚ) / d) * 60 → ((f : ℚ) / d) * 60 < 65 → (p : ℚ) > (f : ℚ) * 1.5 →
      PartFour.disambiguateFft p f d = f * 2)
  ∧ (¬(25 < ((f : ℚ) / d) * 60 ∧ ((f : ℚ) / d) * 60 < 65 ∧ (p : ℚ) > (f : ℚ) * 1.5) →
      PartFour.disambiguateFft p f d = f) := by
  constructor
  · intro ha hb hc
    rw [PartFour.disambiguateFft]
    rw [if_pos ⟨ha, hb⟩, if_pos hc]
  · intro h
    rw [PartFour.disambiguateFft]
    by_cases h1 : 25 < ((f : ℚ) / d) * 60 ∧ ((f : ℚ) / d) * 60 < 65
    · rw [if_pos h1, if_neg fun hc => h ⟨h1.1, h1.2, hc⟩]
    · rw [if_neg h1]

/-- C4 (witness): fft 10 over 12 s implies cadence 50 ∈ (25, 65) and peaks 20
exceed 15, so the prediction is doubled. -/
theorem stride_disambiguation_policy_witness : PartFour.disambiguateFft 20 10 12 = 10 * 2 :=
  (stride_disambiguation_policy 20 10 12).1 (by norm_num) (by norm_num) (by norm_num)

/-! Section: C9: multi-engine reconciliation -/

/-- C9: the combined step count of `handleVideoReady` is the maximum of the
MediaPipe and TensorFlow counts, hence at least each individual count, and it
is never the average of two distinct counts. -/
theorem multi_engine_max (mp tf : ℕ) :
    bestStepCount mp tf = max mp tf ∧ mp ≤ bestStepCount mp tf ∧
    tf ≤ bestStepCount mp tf ∧ (mp ≠ tf → 2 * bestStepCount mp tf ≠ mp + tf) := by
  refine ⟨rfl, Nat.le_max_left _ _, Nat.le_max_right _ _, fun h => ?_⟩
  rcases Nat.lt_or_ge mp tf with h1 | h1
  · rw [bestStepCount, Nat.max_eq_right h1.le]
    omega
  · rw [bestStepCount, Nat.max_eq_left h1]
    omega

/-- C9 (witness): engines reporting 3 and 5 combine to 5, which is not the
average 4. -/
theorem multi_engine_max_witness : 2 * bestStepCount 3 5 ≠ 3 + 5 :=
  (multi_engine_max 3 5).2.2.2 (by decide)

/-! Section: C7: peak spacing invariant -/

lemma findPeaksStep_chain (mtd : ℝ) (hm : 0 ≤ mtd) (data times : List ℝ) (thr : ℝ)
    (peaks : List Peak) (i : ℕ)
    (hacc : List.Chain' (fun p q : Peak => p.time < q.time ∧ mtd ≤ q.time - p.time) peaks) :
    List.Chain' (fun p q : Peak => p.time < q.time ∧ mtd ≤ q.time - p.time)
      (findPeaksStep mtd data times thr peaks i) := by
  rw [findPeaksStep]
  split_ifs with h1 h2 h3
  · rw [List.chain'_append]
    refine ⟨hacc, List.chain'_singleton _, ?_⟩
    intro x hx y hy
    rw [List.head?_cons, Option.mem_def, Option.some.injEq] at hy
    subst hy
    have hne : peaks.length ≠ 0 := by
      intro h0
      rw [List.length_eq_zero.mp h0] at hx
      simp at hx
    have hgap : times.getD i 0 - (peaks.getLast?.getD ⟨0, 0⟩).time > mtd := h3.resolve_left hne
    rw [Option.mem_def] at hx
    rw [hx] at hgap
    have hgap' : times.getD i 0 - x.time > mtd := hgap
    refine ⟨?_, le_of_lt hgap'⟩
    have hpos : (0 : ℝ) < times.getD i 0 - x.time := lt_of_le_of_lt hm hgap'
    linarith
  all_goals exact hacc

lemma findPeaksAux_chain (mtd : ℝ) (hm : 0 ≤ mtd) (data times : List ℝ) (thr : ℝ) :
    List.Chain' (fun p q : Peak => p.time < q.time ∧ mtd ≤ q.time - p.time)
      (findPeaksAux mtd data times thr) := by
  rw [findPeaksAux]
  generalize List.range' 1 (data.length - 2) = is
  have key : ∀ (l : List ℕ) (acc : List Peak),
      List.Chain' (fun p q : Peak => p.time < q.time ∧ mtd ≤ q.time - p.time) acc →
      List.Chain' (fun p q : Peak => p.time < q.time ∧ mtd ≤ q.time - p.time)
        (l.foldl (findPeaksStep mtd data times thr) acc) := by
    intro l
    induction l with
    | nil => exact fun acc h => h
    | cons i l ih =>
      intro acc hacc
      rw [List.foldl_cons]
      exact ih _ (findPeaksStep_chain mtd hm data times thr acc i hacc)
  exact key is [] List.chain'_nil

/-- C7: in both variants of `findPeaks`, every pair of consecutive accepted
peaks is separated by at least the configured minimum spacing (0.25 s in
`mediaPipeService.ts`, 0.20 s in `part_004`) and the accepted timestamps are
strictly increasing, for every input signal, timestamp list and threshold;
a candidate violating the spacing is rejected while the earlier peak is kept
(the list only ever grows at the tail). -/
theorem peak_spacing_invariant (data times : List ℝ) (thr : ℝ) :
    List.Chain' (fun p q : Peak => p.time < q.time ∧ 0.25 ≤ q.time - p.time)
      (MediaPipe.findPeaks data times thr)
  ∧ List.Chain' (fun p q : Peak => p.time < q.time ∧ 0.20 ≤ q.time - p.time)
      (PartFour.findPeaks data times thr) := by
  constructor
  · rw [MediaPipe.findPeaks]
    exact findPeaksAux_chain 0.25 (by norm_num) data times thr
  · rw [PartFour.findPeaks]
    exact findPeaksAux_chain 0.20 (by norm_num) data times thr

/-! Section: C3: constant signals produce zero steps -/

lemma jround_zero : jround 0 = 0 := by
  rw [jround]
  norm_num

lemma getD_replicate {α : Type} (n i : ℕ) (c d : α) (h : i < n) :
    (List.replicate n c).getD i d = c := by
  rw [List.getD_eq_getElem?_getD, List.getElem?_replicate]
  simp [h]

lemma foldl_eq_of_fixed {β γ : Type} (f : β → γ → β) :
    ∀ (l : List γ) (a : β), (∀ x ∈ l, ∀ b, f b x = b) → l.foldl f a = a := by
  intro l
  induction l with
  | nil => intro a _; rfl
  | cons x xs ih =>
    intro a h
    rw [List.foldl_cons, h x (List.mem_cons_self x xs)]
    exact ih a fun y hy b => h y (List.mem_cons_of_mem x hy) b

lemma movingAverage_replicate {α : Type} [LinearOrderedField α] (n w : ℕ) (c : α)
    (hw : 1 ≤ w) : movingAverage (List.replicate n c) w = List.replicate n c := by
  rw [movingAverage, List.length_replicate]
  rw [List.eq_replicate_iff]
  refine ⟨by simp, ?_⟩
  intro b hb
  rw [List.mem_map] at hb
  obtain ⟨i, hi, hb⟩ := hb
  rw [List.mem_range] at hi
  rw [← hb]
  have htake : (List.replicate n c).take (i + 1) = List.replicate (i + 1) c := by
    rw [List.take_replicate]
    congr 1
    omega
  rw [htake, List.drop_replicate]
  set L := i + 1 - (i + 1 - w) with hL
  have hLpos : L ≠ 0 := by omega
  simp only [List.sum_replicate, List.length_replicate, nsmul_eq_mul]
  exact mul_div_cancel_left₀ c (by exact_mod_cast hLpos)

lemma findPeaksAux_replicate (mtd thr : ℝ) (n : ℕ) (c : ℝ) (ts : List ℝ) :
    findPeaksAux mtd (List.replicate n c) ts thr = [] := by
  rw [findPeaksAux]
  apply foldl_eq_of_fixed
  intro x hx b
  rw [List.length_replicate] at hx
  have hx' := List.mem_range'_1.mp hx
  have hxn : x < n := by omega
  have hxn' : x - 1 < n := by omega
  rw [findPeaksStep, if_neg]
  intro hc
  rw [getD_replicate n x c 0 hxn, getD_replicate n (x - 1) c 0 hxn'] at hc
  exact lt_irrefl c hc.1

lemma finalStepCount_of_no_peaks (fft : ℤ) (d : ℝ) : MediaPipe.finalStepCount 0 fft d = 0 := by
  rw [MediaPipe.finalStepCount]
  rw [if_neg]
  · simp
  rintro ⟨hA, -, hC⟩
  have h4 : (4 : ℝ) ≤ (fft : ℝ) := by exact_mod_cast hC
  norm_num at hA
  linarith

/-- C3: for every constant-valued normalized signal (the empty signal
included), every timestamp list and every analysis duration, the pipeline of
`mediaPipeService.ts` reports a final step count of 0, cadence 0, mean step
interval 0 and the fixed variability placeholder 20 — each reported temporal
metric is one of these finite literals, never an undefined value, because
every division feeding them sits behind the `durationMin > 0`,
`finalStepCount > 0` and peak-count guards visible in `stepMetrics`. -/
theorem constant_signal_zero_steps (c : ℝ) (n : ℕ) (ts : List ℝ) (d : ℝ) :
    (MediaPipe.stepMetrics (List.replicate n c) ts d).stepCount = 0
  ∧ (MediaPipe.stepMetrics (List.replicate n c) ts d).cadence = 0
  ∧ (MediaPipe.stepMetrics (List.replicate n c) ts d).meanStepInterval = 0
  ∧ (MediaPipe.stepMetrics (List.replicate n c) ts d).stepTimeVariability = 20 := by
  have hsm : movingAverage (List.replicate n c) 3 = List.replicate n c :=
    movingAverage_replicate n 3 c (by norm_num)
  have hfp : MediaPipe.findPeaks (movingAverage (List.replicate n c) 3) ts
      (MediaPipe.adaptiveThreshold (List.replicate n c)) = [] := by
    rw [hsm, MediaPipe.findPeaks]
    exact findPeaksAux_replicate 0.25 _ n c ts
  simp only [MediaPipe.stepMetrics, hfp, List.length_nil, finalStepCount_of_no_peaks]
  norm_num [jround_zero, jround]

/-! Section: C6: base-of-support postcondition -/

/-- C6: a base-of-support measurement is produced by a frame only when both
heel visibilities exceed 0.5, the pixel-height proxy exceeds 0.2 and the heels
are vertically aligned within 0.03; its value is
`|xLeft - xRight| * (heightCm / pixelHeight) * 0.85` and lies strictly between
2 and 45 cm.  When at least one measurement was collected, `calculatedBOS`
equals the entry at index `floor(0.25 * N)` of the ascending-sorted
measurement list (stated against any sorted permutation `s` of the
measurement list, which is unique). -/
theorem bos_postcondition (h : ℚ) (f : FrameLandmarks) (m : ℚ) (bos s : List ℚ) :
    (bosCandidate h f = some m →
      f.leftHeel.visibility > 0.5 ∧ f.rightHeel.visibility > 0.5 ∧
      |(f.leftHeel.y + f.rightHeel.y) / 2 - f.nose.y| > 0.2 ∧
      |f.leftHeel.y - f.rightHeel.y| < 0.03 ∧
      m = |f.leftHeel.x - f.rightHeel.x| *
        (h / |(f.leftHeel.y + f.rightHeel.y) / 2 - f.nose.y|) * 0.85 ∧
      2 < m ∧ m < 45)
  ∧ (bos ≠ [] → bos.Perm s → s.Sorted (· ≤ ·) →
      calculatedBOS bos = s.getD ⌊(bos.length : ℚ) * 0.25⌋₊ 0) := by
  constructor
  · intro hsome
    simp only [bosCandidate] at hsome
    split_ifs at hsome with h1 h2 h3 h4
    · rw [Option.some.injEq] at hsome
      exact ⟨h1.1, h1.2, h2, h3, hsome.symm, hsome ▸ h4.1, hsome ▸ h4.2⟩
  · intro hne hperm hsorted
    rw [calculatedBOS, if_pos (by simpa using List.length_pos.mpr hne)]
    have hsort : bos.mergeSort = s :=
      List.eq_of_perm_of_sorted ((List.mergeSort_perm bos _).trans hperm)
        (List.sorted_mergeSort' bos) hsorted
    rw [hsort]

/-- C6 (witness): at height 170 cm, the double-support sample frame yields the
measurement 867/80 cm = 10.8375 cm inside (2, 45), and the list
[10, 3, 7, 5] of four measurements reports its sorted element at index
⌊4 · 0.25⌋ = 1, namely 5. -/
theorem bos_postcondition_witness :
    ((2 : ℚ) < 867/80 ∧ (867/80 : ℚ) < 45) ∧ calculatedBOS [10, 3, 7, 5] = 5 := by
  constructor
  · have h := (bos_postcondition 170 bosSampleFrame (867/80) [10, 3, 7, 5] [3, 5, 7, 10]).1
      (by norm_num [bosCandidate, bosSampleFrame, abs_of_nonneg])
    exact ⟨h.2.2.2.2.2.1, h.2.2.2.2.2.2⟩
  · have h := (bos_postcondition 170 bosSampleFrame (867/80) [10, 3, 7, 5] [3, 5, 7, 10]).2
      (by decide) (by decide) (by decide)
    rw [h]
    norm_num

/-! Section: C10: zero sentinels at the public interface -/

lemma calculateLiftStep_pos (floorLevel : ℚ) (sm : List ℚ) (lifts : List ℚ) (i : ℕ)
    (hacc : ∀ l ∈ lifts, l > 0.01) :
    ∀ l ∈ calculateLiftStep floorLevel sm lifts i, l > 0.01 := by
  simp only [calculateLiftStep]
  split_ifs with h1 h2
  · intro l hl
    rw [List.mem_append] at hl
    rcases hl with hl | hl
    · exact hacc l hl
    · rw [List.mem_singleton] at hl
      rw [hl]
      exact h2
  all_goals exact hacc

lemma calculateLift_events_pos (ys : List ℚ) : ∀ l ∈ calculateLift ys, l > 0.01 := by
  rw [calculateLift]
  generalize (ys.mergeSort.getD ⌊(ys.mergeSort.length : ℚ) * 0.90⌋₊ 0) = floorLevel
  generalize movingAverage ys 5 = sm
  generalize List.range' 1 (sm.length - 2) = is
  have key : ∀ (l : List ℕ) (acc : List ℚ), (∀ x ∈ acc, x > 0.01) →
      ∀ x ∈ l.foldl (calculateLiftStep floorLevel sm) acc, x > 0.01 := by
    intro l
    induction l with
    | nil => exact fun acc h => h
    | cons i l ih =>
      intro acc hacc
      rw [List.foldl_cons]
      exact ih _ (calculateLiftStep_pos floorLevel sm acc i hacc)
  exact key is [] (by simp)

/-- C10: when no frame passes the base-of-support filters the reported value
is 0; every collected heel-lift event exceeds the 0.01 noise floor, and when
no event was collected — or the session height scale is 0 — the reported
average heel lift is 0.  Both sentinels coincide with a genuine zero
measurement at the public interface. -/
theorem zero_sentinel_reporting (h : ℚ) (frames : List FrameLandmarks)
    (lys rys : List ℚ) (cm : ℚ) :
    ((∀ f ∈ frames, bosCandidate h f = none) →
      calculatedBOS (bosMeasurements h frames) = 0)
  ∧ (∀ l ∈ calculateLift lys, l > 0.01)
  ∧ (calculateLift lys ++ calculateLift rys = [] ∨ cm = 0 →
      averageLiftCm (calculateLift lys ++ calculateLift rys) cm = 0) := by
  refine ⟨fun hall => ?_, calculateLift_events_pos lys, fun hc => ?_⟩
  · rw [bosMeasurements, List.filterMap_eq_nil_iff.mpr hall, calculatedBOS]
    simp
  · rw [averageLiftCm]
    rcases hc with hc | hc
    · rw [if_neg]
      rintro ⟨hlen, -⟩
      rw [hc] at hlen
      simp at hlen
    · rw [if_neg]
      rintro ⟨-, hcm⟩
      rw [hc] at hcm
      exact lt_irrefl 0 hcm

/-- C10 (witness): a fully occluded frame contributes no measurement and the
report is 0; with empty lift-event lists and a zero scale factor the reported
heel lift is 0. -/
theorem zero_sentinel_reporting_witness :
    calculatedBOS (bosMeasurements 170 [occludedFrame]) = 0 ∧
    averageLiftCm (calculateLift [] ++ calculateLift []) 0 = 0 := by
  constructor
  · exact (zero_sentinel_reporting 170 [occludedFrame] [] [] 0).1
      (by intro f hf; rw [List.mem_singleton] at hf; rw [hf]; norm_num [bosCandidate, occludedFrame])
  · exact (zero_sentinel_reporting 170 [occludedFrame] [] [] 0).2.2 (Or.inr rfl)

/-! Section: C8: occlusion carry-forward -/

lemma collectSignals_append (fs : List FrameLandmarks) (f : FrameLandmarks) :
    collectSignals (fs ++ [f]) = collectSignals fs ++ [nextSignal (collectSignals fs) f] := by
  rw [collectSignals, collectSignals, List.foldl_append, List.foldl_cons, List.foldl_nil,
    pushSignal]

lemma collectSignals_length (frames : List FrameLandmarks) :
    (collectSignals frames).length = frames.length := by
  induction frames using List.reverseRecOn with
  | nil => rfl
  | append_singleton fs f ih =>
    rw [collectSignals_append, List.length_append, List.length_append, ih]
    rfl

/-- C8: no processed frame is ever dropped — the signal has exactly one entry
per frame — and whenever a required ankle landmark of frame `i` has
visibility below 0.5, that frame's signal entry repeats the previous entry's
`ankleDist` and `shoulderWidth` (the carried-forward last measurement), or is
the `{ankleDist: 0, shoulderWidth: 1}` default when the occluded frame is the
first; the pipeline is a total function and never aborts on such frames. -/
theorem occlusion_carry_forward (frames : List FrameLandmarks) :
    (collectSignals frames).length = frames.length
  ∧ ∀ i, i < frames.length →
      ((frames.getD i default).leftAnkle.visibility < 0.5 ∨
       (frames.getD i default).rightAnkle.visibility < 0.5) →
      ((i = 0 → (collectSignals frames).getD i default =
          { ankleDist := 0, shoulderWidth := 1,
            timestamp := (frames.getD i default).timestamp })
       ∧ ∀ j, i = j + 1 →
          ((collectSignals frames).getD i default).ankleDist =
            ((collectSignals frames).getD j default).ankleDist ∧
          ((collectSignals frames).getD i default).shoulderWidth =
            ((collectSignals frames).getD j default).shoulderWidth) := by
  induction frames using List.reverseRecOn with
  | nil =>
    refine ⟨rfl, fun i hi => absurd hi (by simp)⟩
  | append_singleton fs f ih =>
    obtain ⟨ihlen, ihspec⟩ := ih
    refine ⟨by rw [collectSignals_append, List.length_append, List.length_append, ihlen]; rfl, ?_⟩
    intro i hi hvis
    rw [List.length_append, List.length_cons, List.length_nil] at hi
    rcases Nat.lt_or_ge i fs.length with hlt | hge
    · have hgf : (fs ++ [f]).getD i default = fs.getD i default :=
        List.getD_append _ _ _ _ hlt
      have hgi : (collectSignals (fs ++ [f])).getD i default =
          (collectSignals fs).getD i default := by
        rw [collectSignals_append]
        exact List.getD_append _ _ _ _ (by rw [ihlen]; exact hlt)
      rw [hgf] at hvis
      obtain ⟨h0, hj⟩ := ihspec i hlt hvis
      constructor
      · intro hi0
        rw [hgi, hgf]
        exact h0 hi0
      · intro j hij
        have hjlt : j < fs.length := by omega
        have hgj : (collectSignals (fs ++ [f])).getD j default =
            (collectSignals fs).getD j default := by
          rw [collectSignals_append]
          exact List.getD_append _ _ _ _ (by rw [ihlen]; exact hjlt)
        rw [hgi, hgj]
        exact hj j hij
    · have hieq : i = fs.length := by omega
      subst hieq
      have hgf : (fs ++ [f]).getD fs.length default = f := by
        rw [List.getD_eq_getElem?_getD, List.getElem?_append_right (le_refl _)]
        simp
      have hglast : (collectSignals (fs ++ [f])).getD fs.length default =
          nextSignal (collectSignals fs) f := by
        rw [collectSignals_append, ← ihlen, List.getD_eq_getElem?_getD,
          List.getElem?_append_right (le_refl _)]
        simp
      rw [hgf] at hvis
      have hnv : ¬ ankleValid f := by
        rw [ankleValid]
        rcases hvis with hv | hv
        · exact fun hc => absurd hc.1 (not_lt.mpr hv.le)
        · exact fun hc => absurd hc.2 (not_lt.mpr hv.le)
      have hnext : nextSignal (collectSignals fs) f =
          { (collectSignals fs).getLast?.getD
              { ankleDist := 0, shoulderWidth := 1, timestamp := f.timestamp } with
            timestamp := f.timestamp } := by
        rw [nextSignal, if_neg hnv]
      constructor
      · intro h0
        have hfs : fs = [] := List.length_eq_zero.mp h0
        subst hfs
        simp only [List.length_nil] at hglast
        rw [h0, hglast, hnext]
        rfl
      · intro j hij
        have hjlt : j < fs.length := by omega
        have hgj : (collectSignals (fs ++ [f])).getD j default =
            (collectSignals fs).getD j default := by
          rw [collectSignals_append]
          exact List.getD_append _ _ _ _ (by rw [ihlen]; exact hjlt)
        have hpos : 0 < (collectSignals fs).length := by omega
        have hidx : (collectSignals fs).length - 1 = j := by omega
        have hsome : (collectSignals fs).getLast? =
            some ((collectSignals fs).getD j default) := by
          rw [List.getLast?_eq_getElem?, hidx, List.getD_eq_getElem?_getD,
            List.getElem?_eq_getElem (by omega)]
          simp
        rw [hglast, hgj, hnext, hsome]
        exact ⟨rfl, rfl⟩

/-- C8 (witness): a visible frame followed by a fully occluded frame produces
a two-entry signal whose second entry carries the first entry's measurement
forward. -/
theorem occlusion_carry_forward_witness :
    ((collectSignals [sampleValidFrame, occludedFrame]).getD 1 default).ankleDist =
      ((collectSignals [sampleValidFrame, occludedFrame]).getD 0 default).ankleDist ∧
    ((collectSignals [sampleValidFrame, occludedFrame]).getD 1 default).shoulderWidth =
      ((collectSignals [sampleValidFrame, occludedFrame]).getD 0 default).shoulderWidth :=
  ((occlusion_carry_forward [sampleValidFrame, occludedFrame]).2 1 (by norm_num)
    (Or.inl (by rw [List.getD_cons_succ, List.getD_cons_zero]; norm_num [occludedFrame]))).2
    0 rfl

/-! Section: C5: scale invariance -/

lemma euclid_horizontal (a b : Landmark) (h : a.y = b.y) :
    euclid a b = |((a.x - b.x : ℚ) : ℝ)| := by
  have hz : ((a.y - b.y : ℚ) : ℝ) = 0 := by
    rw [h, sub_self]
    norm_num
  rw [euclid, hz, mul_zero, add_zero, Real.sqrt_mul_self_eq_abs]

lemma euclid_scale (k : ℚ) (hk : 0 ≤ k) (a b : Landmark) :
    euclid (scaleLandmark k a) (scaleLandmark k b) = (k : ℝ) * euclid a b := by
  simp only [euclid, scaleLandmark]
  have hx : ((k * a.x - k * b.x : ℚ) : ℝ) = (k : ℝ) * ((a.x - b.x : ℚ) : ℝ) := by
    push_cast
    ring
  have hy : ((k * a.y - k * b.y : ℚ) : ℝ) = (k : ℝ) * ((a.y - b.y : ℚ) : ℝ) := by
    push_cast
    ring
  rw [hx, hy]
  have hfac : (k : ℝ) * ((a.x - b.x : ℚ) : ℝ) * ((k : ℝ) * ((a.x - b.x : ℚ) : ℝ)) +
      (k : ℝ) * ((a.y - b.y : ℚ) : ℝ) * ((k : ℝ) * ((a.y - b.y : ℚ) : ℝ)) =
      (k : ℝ) * (k : ℝ) * (((a.x - b.x : ℚ) : ℝ) * ((a.x - b.x : ℚ) : ℝ) +
        ((a.y - b.y : ℚ) : ℝ) * ((a.y - b.y : ℚ) : ℝ)) := by
    ring
  rw [hfac, Real.sqrt_mul (mul_self_nonneg _), Real.sqrt_mul_self_eq_abs,
    abs_of_nonneg (by exact_mod_cast hk : (0 : ℝ) ≤ (k : ℝ))]

lemma ankleValid_scale (k : ℚ) (f : FrameLandmarks) :
    ankleValid (scaleFrame k f) ↔ ankleValid f := by
  simp [ankleValid, scaleFrame, scaleLandmark]

lemma SignalRel_getLast (l' l : List RawSignal) (t : ℚ)
    (h : List.Forall₂ SignalRel l' l) :
    SignalRel (l'.getLast?.getD ⟨0, 1, t⟩) (l.getLast?.getD ⟨0, 1, t⟩) := by
  induction h with
  | nil => exact ⟨rfl, rfl⟩
  | @cons a b l₁ l₂ hab htail ih =>
    cases htail with
    | nil => simpa using hab
    | @cons c d l₃ l₄ hcd htail' =>
      rw [List.getLast?_cons_cons, List.getLast?_cons_cons]
      exact ih

lemma nextSignal_rel (k : ℚ) (hk : 0 < k) (f : FrameLandmarks)
    (hw : ankleValid f → euclid f.leftShoulder f.rightShoulder > 0.01 ∧
      (k : ℝ) * euclid f.leftShoulder f.rightShoulder > 0.01)
    (acc' acc : List RawSignal) (hrel : List.Forall₂ SignalRel acc' acc) :
    SignalRel (nextSignal acc' (scaleFrame k f)) (nextSignal acc f) := by
  rw [nextSignal, nextSignal]
  by_cases hv : ankleValid f
  · rw [if_pos ((ankleValid_scale k f).mpr hv), if_pos hv]
    obtain ⟨hw1, hw2⟩ := hw hv
    have ha : euclid (scaleFrame k f).leftAnkle (scaleFrame k f).rightAnkle =
        (k : ℝ) * euclid f.leftAnkle f.rightAnkle := by
      simp only [scaleFrame]
      exact euclid_scale k hk.le _ _
    have hs : euclid (scaleFrame k f).leftShoulder (scaleFrame k f).rightShoulder =
        (k : ℝ) * euclid f.leftShoulder f.rightShoulder := by
      simp only [scaleFrame]
      exact euclid_scale k hk.le _ _
    refine ⟨?_, rfl⟩
    simp only [ha, hs]
    rw [if_pos hw2, if_pos hw1]
    have hkR : (k : ℝ) ≠ 0 := by
      exact_mod_cast hk.ne'
    exact mul_div_mul_left _ _ hkR
  · rw [if_neg (fun hc => hv ((ankleValid_scale k f).mp hc)), if_neg hv]
    have h := SignalRel_getLast acc' acc f.timestamp hrel
    exact ⟨h.1, rfl⟩

lemma collect_scale_rel (k : ℚ) (hk : 0 < k) :
    ∀ (frames : List FrameLandmarks) (acc' acc : List RawSignal),
      (∀ f ∈ frames, ankleValid f → euclid f.leftShoulder f.rightShoulder > 0.01 ∧
        (k : ℝ) * euclid f.leftShoulder f.rightShoulder > 0.01) →
      List.Forall₂ SignalRel acc' acc →
      List.Forall₂ SignalRel ((frames.map (scaleFrame k)).foldl pushSignal acc')
        (frames.foldl pushSignal acc) := by
  intro frames
  induction frames with
  | nil => exact fun acc' acc _ h => h
  | cons f fs ih =>
    intro acc' acc hw hrel
    rw [List.map_cons, List.foldl_cons, List.foldl_cons]
    apply ih
    · exact fun g hg => hw g (List.mem_cons_of_mem f hg)
    · rw [pushSignal, pushSignal]
      exact List.rel_append hrel (List.Forall₂.cons
        (nextSignal_rel k hk f (hw f (List.mem_cons_self f fs)) acc' acc hrel)
        List.Forall₂.nil)

lemma forall₂_signal_maps (l' l : List RawSignal) (h : List.Forall₂ SignalRel l' l) :
    l'.map (fun s => s.ankleDist / s.shoulderWidth) =
      l.map (fun s => s.ankleDist / s.shoulderWidth) ∧
    l'.map (fun s => (s.timestamp : ℝ)) = l.map (fun s => (s.timestamp : ℝ)) := by
  induction h with
  | nil => exact ⟨rfl, rfl⟩
  | cons hab htail ih =>
    simp only [List.map_cons]
    exact ⟨by rw [hab.1, ih.1], by rw [hab.2, ih.2]⟩

/-- C5 (counterexample): scaling the sample frame by k = 1/2 pushes its
shoulder width from 0.02 down to 0.01, across the `> 0.01` normalization
floor, so the stored width becomes the substitute 1 and the normalized signal
changes from [2] to [1/50] — scale invariance fails as stated. -/
theorem scale_invariance_counterexample :
    (0 : ℚ) < 1/2
  ∧ normalizedSignal [sampleValidFrame] = [2]
  ∧ normalizedSignal (List.map (scaleFrame (1/2)) [sampleValidFrame]) = [1/50]
  ∧ ((2 : ℝ) ≠ 1/50) := by
  have hvalid : ankleValid sampleValidFrame := by
    rw [ankleValid]
    norm_num [sampleValidFrame]
  have hA : euclid sampleValidFrame.leftAnkle sampleValidFrame.rightAnkle =
      ((1/25 : ℚ) : ℝ) := by
    rw [euclid_horizontal sampleValidFrame.leftAnkle sampleValidFrame.rightAnkle rfl]
    norm_num [sampleValidFrame]
  have hS : euclid sampleValidFrame.leftShoulder sampleValidFrame.rightShoulder =
      ((1/50 : ℚ) : ℝ) := by
    rw [euclid_horizontal sampleValidFrame.leftShoulder sampleValidFrame.rightShoulder rfl]
    norm_num [sampleValidFrame]
  have hA' : euclid (scaleFrame (1/2) sampleValidFrame).leftAnkle
      (scaleFrame (1/2) sampleValidFrame).rightAnkle = ((1/50 : ℚ) : ℝ) := by
    simp only [scaleFrame]
    rw [euclid_scale _ (by norm_num) _ _, hA]
    push_cast
    norm_num
  have hS' : euclid (scaleFrame (1/2) sampleValidFrame).leftShoulder
      (scaleFrame (1/2) sampleValidFrame).rightShoulder = ((1/100 : ℚ) : ℝ) := by
    simp only [scaleFrame]
    rw [euclid_scale _ (by norm_num) _ _, hS]
    push_cast
    norm_num
  refine ⟨by norm_num, ?_, ?_, by norm_num⟩
  · rw [normalizedSignal, collectSignals, List.foldl_cons, List.foldl_nil, pushSignal,
      List.nil_append, List.map_cons, List.map_nil, nextSignal, if_pos hvalid]
    simp only [hA, hS]
    rw [if_pos (by push_cast; norm_num)]
    congr 1
    push_cast
    norm_num
  · rw [List.map_cons, List.map_nil, normalizedSignal, collectSignals, List.foldl_cons,
      List.foldl_nil, pushSignal, List.nil_append, List.map_cons, List.map_nil, nextSignal,
      if_pos ((ankleValid_scale _ _).mpr hvalid)]
    simp only [hA', hS']
    rw [if_neg (by push_cast; norm_num)]
    congr 1
    push_cast
    norm_num

/-- C5 (amended): uniform scaling by k > 0 leaves the normalized signal, the
timestamp list and hence every downstream temporal metric (the step count
included) unchanged, provided no frame's shoulder width crosses the 0.01
normalization floor — that is, on every ankle-valid frame both the raw
shoulder width and its scaled copy exceed 0.01.  Without that proviso the
invariance fails (see the counterexample). -/
theorem scale_invariance_amended (k : ℚ) (frames : List FrameLandmarks) (hk : 0 < k)
    (hfloor : ∀ f ∈ frames, ankleValid f →
      euclid f.leftShoulder f.rightShoulder > 0.01 ∧
      (k : ℝ) * euclid f.leftShoulder f.rightShoulder > 0.01) :
    normalizedSignal (frames.map (scaleFrame k)) = normalizedSignal frames
  ∧ timestampsOf (frames.map (scaleFrame k)) = timestampsOf frames
  ∧ ∀ d : ℝ, MediaPipe.stepMetrics (normalizedSignal (frames.map (scaleFrame k)))
      (timestampsOf (frames.map (scaleFrame k))) d =
    MediaPipe.stepMetrics (normalizedSignal frames) (timestampsOf frames) d := by
  have h := collect_scale_rel k hk frames [] [] hfloor List.Forall₂.nil
  have hm := forall₂_signal_maps _ _ h
  have h1 : normalizedSignal (frames.map (scaleFrame k)) = normalizedSignal frames := by
    rw [normalizedSignal, normalizedSignal, collectSignals, collectSignals]
    exact hm.1
  have h2 : timestampsOf (frames.map (scaleFrame k)) = timestampsOf frames := by
    rw [timestampsOf, timestampsOf, collectSignals, collectSignals]
    exact hm.2
  exact ⟨h1, h2, fun d => by rw [h1, h2]⟩

/-- C5 (witness): scaling the sample frame by k = 2 keeps both the original
width 0.02 and the scaled width 0.04 above the floor, and the normalized
signal is unchanged. -/
theorem scale_invariance_amended_witness :
    normalizedSignal (List.map (scaleFrame 2) [sampleValidFrame]) =
      normalizedSignal [sampleValidFrame] :=
  (scale_invariance_amended 2 [sampleValidFrame] (by norm_num)
    (by
      intro f hf hv
      rw [List.mem_singleton] at hf
      subst hf
      have hS : euclid sampleValidFrame.leftShoulder sampleValidFrame.rightShoulder =
          ((1/50 : ℚ) : ℝ) := by
        rw [euclid_horizontal sampleValidFrame.leftShoulder sampleValidFrame.rightShoulder rfl]
        norm_num [sampleValidFrame]
      rw [hS]
      push_cast
      norm_num)).1

end GaitAnalysis
